import Mathlib

/-! Shallow embedding of `src/httpx/client.py`: the shared client core of an
HTTP client library, comprising the client context (merged defaults), the
send pipeline (auth resolution and error attribution), and the redirect
engine (`send_handling_redirects` with its loop-detection and hop-counting
prechecks and the per-hop request rewriting helpers).

External collaborators (the URL / Headers / Cookies value types from the
models module, the dispatcher, the HSTS preload database, netrc lookup, and
Basic-auth encoding) are not part of the source file set; each is modelled
from the specification, and their definitions say so in their doc comments.
Body buffering and stream-close resource effects are out of the pure model;
no claim below depends on them. -/

/-- Kernel-computable ASCII lowercasing of a name, written over the string's
character list (String.toLower itself does not reduce in the kernel). -/
def lowerName (s : String) : String := ⟨s.data.map Char.toLower⟩

/-- Modelled from the spec: headers (external models module, absent from
src/) form a case-insensitive, order-preserving multimap from name to value.
We store raw (name, value) pairs and compare names case-insensitively in
every operation. -/
abbrev Headers := List (String × String)

/-- Case-insensitive test for the presence of a header name. -/
def Headers.hasKey (h : Headers) (name : String) : Bool :=
  h.any (fun p => lowerName p.1 == lowerName name)

/-- Modelled from the spec: case-insensitive getter returning the first
value for a name, defaulting to the empty string (used for the engine's
`headers["Location"]` access, which `is_redirect` guards). -/
def Headers.get (h : Headers) (name : String) : String :=
  match h.find? (fun p => lowerName p.1 == lowerName name) with
  | some p => p.2
  | none => ""

/-- Modelled from the spec: deleting a header name removes every entry with
that name, case-insensitively; deleting an absent name is tolerated (the
result is unchanged). -/
def Headers.delete (h : Headers) (name : String) : Headers :=
  h.filter (fun p => lowerName p.1 != lowerName name)

/-- Modelled from the spec: updating a header multimap with another replaces
all existing entries for each name occurring in the update and appends the
update's entries in order. -/
def Headers.update (h other : Headers) : Headers :=
  h.filter (fun p => !(Headers.hasKey other p.1)) ++ other

/-- Modelled from the spec: a cookie jar as an ordered list of
(name, value) pairs supporting dictionary-style update. -/
abbrev Cookies := List (String × String)

/-- Set one cookie, replacing an existing value for the same name. -/
def Cookies.set (jar : Cookies) (name value : String) : Cookies :=
  if jar.any (fun p => p.1 == name) then
    jar.map (fun p => if p.1 == name then (name, value) else p)
  else jar ++ [(name, value)]

/-- Dictionary-style update of a jar from another jar. -/
def Cookies.update (jar other : Cookies) : Cookies :=
  other.foldl (fun acc p => Cookies.set acc p.1 p.2) jar

/-- Modelled from the spec: a URL value with origin (scheme, host, port),
path, query, fragment, optional user-info, and an explicit relative flag.
URL equality is the spec's normalized string identity, modelled as
structural equality. -/
structure URL where
  scheme : String := ""
  host : String := ""
  port : Nat := 0
  path : String := ""
  query : String := ""
  fragment : String := ""
  username : String := ""
  password : String := ""
  is_relative : Bool := false
deriving DecidableEq, Repr

/-- The origin of a URL: scheme, host and port. -/
def URL.origin (u : URL) : String × String × Nat := (u.scheme, u.host, u.port)

/-- Modelled from the spec: the authority component consulted by the netrc
lookup, identified with the host here. -/
def URL.authority (u : URL) : String := u.host

/-- The relative-reference predicate of the URL entity. -/
def URL.is_relative_url (u : URL) : Bool := u.is_relative

/-- Modelled from the spec: join against a relative URL.  An absolute
relative_url wins outright; a relative one takes the base's origin and
user-info; the explicitly-relative empty URL acts as the identity base. -/
def URL.join (base relative_url : URL) : URL :=
  if relative_url.is_relative then
    { relative_url with
        scheme := base.scheme, host := base.host, port := base.port,
        username := base.username, password := base.password,
        is_relative := base.is_relative }
  else relative_url

/-- Modelled from the spec: construction of a URL from a string, allowing
relative references.  Simplified grammar: "scheme://host/path#fragment" is
absolute; a string without "://" is a relative reference (path#fragment). -/
def URL.parse (s : String) : URL :=
  let parts := s.splitOn "#"
  let core := parts.headD ""
  let frag := String.intercalate "#" parts.tail
  match core.splitOn "://" with
  | [] => { path := core, fragment := frag, is_relative := true }
  | [onlyPath] => { path := onlyPath, fragment := frag, is_relative := true }
  | scheme :: rest =>
    let remainder := String.intercalate "://" rest
    { scheme := scheme,
      host := remainder.takeWhile (fun c => c != '/'),
      path := remainder.dropWhile (fun c => c != '/'),
      fragment := frag }

/-- The response entity: status code, headers, the URL it was served from,
and the history of prior responses on its redirect chain (attached by the
engine before the response is recorded). -/
structure Response where
  status_code : Nat
  headers : Headers
  url : URL
  history : List Response := []

/-- Modelled from the spec: `is_redirect` is true iff the status code is one
of 301, 302, 303, 307, 308 and a Location header is present. -/
def Response.is_redirect (r : Response) : Bool :=
  (r.status_code == 301 || r.status_code == 302 || r.status_code == 303 ||
    r.status_code == 307 || r.status_code == 308) && r.headers.hasKey "location"

/-- The prepared request entity: method, URL, headers, body bytes, the
streaming flag, and an optional cookies snapshot. -/
structure Request where
  method : String
  url : URL
  headers : Headers := []
  content : List UInt8 := []
  is_streaming : Bool := false
  cookies : Option Cookies := none
deriving DecidableEq, Repr

/-- The HTTPError taxonomy of the exceptions module (contractual per the
spec); each redirect-engine failure carries the relevant response, and
dispatcher-level failures are represented by `dispatchFailure`. -/
inductive HttpError where
  | invalidURL (msg : String)
  | tooManyRedirects (response : Response)
  | redirectLoop (response : Response)
  | redirectBodyUnavailable (response : Response)
  | dispatchFailure (msg : String)

/-- Outcome kind of the engine: an HTTPError, or the IndexError produced by
evaluating `history[-1]` on an empty history. -/
inductive EngineFailure where
  | http (e : HttpError)
  | indexError

/-- A raw auth argument (spec: a 2-tuple credential, prepared Basic auth, or
a custom request transformation). -/
inductive AuthArg where
  | pair (username password : String)
  | basic (username password : String)
  | fn (f : Request → Request)

/-- The client context: merged defaults fixed at construction.  The default
redirect cap is the configured DEFAULT_MAX_REDIRECTS = 20, and trust_env
defaults to true; an absent base URL is the explicitly-relative empty URL. -/
structure Client where
  auth : Option AuthArg := none
  headers : Headers := []
  cookies : Cookies := []
  max_redirects : Int := 20
  base_url : URL := { is_relative := true }
  trust_env : Bool := true

/-- merge_url from the source: join the base URL with the given URL, then
upgrade scheme http to https when the host is in the HSTS preload set.  The
preload database is external and passed as a predicate; copy_with is the
record update of the scheme field. -/
def merge_url (c : Client) (in_hsts_preload : String → Bool) (url : URL) : URL :=
  let url := c.base_url.join url
  if url.scheme = "http" ∧ in_hsts_preload url.host then
    { url with scheme := "https" }
  else url

/-- merge_headers from the source: if either the per-call headers or the
client defaults are non-empty, answer a fresh set seeded from the defaults
and updated with the per-call headers; else return the argument unchanged. -/
def merge_headers (c : Client) (headers : Option Headers) : Option Headers :=
  if headers.getD [] ≠ [] ∨ c.headers ≠ [] then
    some (Headers.update c.headers (headers.getD []))
  else headers

/-- merge_cookies from the source, over the client jar it reads (the jar is
threaded explicitly because the engine mutates it between hops). -/
def merge_cookies (jar : Cookies) (cookies : Option Cookies) : Option Cookies :=
  if cookies.getD [] ≠ [] ∨ jar ≠ [] then
    some (Cookies.update jar (cookies.getD []))
  else cookies

/-- Modelled from the spec: extract_cookies harvests Set-Cookie headers of a
response into the jar, each value read as "name=value". -/
def Cookies.extract (jar : Cookies) (response : Response) : Cookies :=
  Cookies.update jar
    ((response.headers.filter (fun p => lowerName p.1 == "set-cookie")).map
      (fun p => (p.2.takeWhile (fun ch => ch != '='),
                 (p.2.dropWhile (fun ch => ch != '=')).drop 1)))

/-- redirect_method from the source.  Status names resolve to 303
(SEE_OTHER), 302 (FOUND) and 301 (MOVED_PERMANENTLY). -/
def redirect_method (request : Request) (response : Response) : String :=
  let method := request.method
  let method := if response.status_code = 303 ∧ method ≠ "HEAD" then "GET" else method
  let method := if response.status_code = 302 ∧ method ≠ "HEAD" then "GET" else method
  let method := if response.status_code = 301 ∧ method = "POST" then "GET" else method
  method

/-- redirect_url from the source: parse Location allowing a relative
reference, join a relative result against the request URL, and carry over a
prior fragment when the new URL has none. -/
def redirect_url (request : Request) (response : Response) : URL :=
  let location := response.headers.get "Location"
  let url := URL.parse location
  let url := if url.is_relative_url then request.url.join url else url
  if request.url.fragment ≠ "" ∧ url.fragment = "" then
    { url with fragment := request.url.fragment }
  else url

/-- redirect_headers from the source: copy the prior request's headers and,
when the redirect leaves the origin, delete the Authorization and host
entries. -/
def redirect_headers (request : Request) (url : URL) : Headers :=
  let headers := request.headers
  if url.origin ≠ request.url.origin then
    (headers.delete "Authorization").delete "host"
  else headers

/-- redirect_content from the source: an empty body when the method changed
to GET, a RedirectBodyUnavailable failure when the prior body is a lazy
stream, and the prior bytes otherwise. -/
def redirect_content (request : Request) (method : String) (response : Response) :
    Except HttpError (List UInt8) :=
  if method ≠ request.method ∧ method = "GET" then .ok []
  else if request.is_streaming then .error (.redirectBodyUnavailable response)
  else .ok request.content

/-- build_redirect_request from the source; a request constructed from plain
bytes is not streaming. -/
def build_redirect_request (jar : Cookies) (request : Request) (response : Response) :
    Except HttpError Request :=
  let method := redirect_method request response
  let url := redirect_url request response
  let headers := redirect_headers request url
  match redirect_content request method response with
  | .error e => .error e
  | .ok content =>
    .ok { method := method, url := url, headers := headers, content := content,
          is_streaming := false, cookies := merge_cookies jar request.cookies }

/-- The observable outcome of one engine run: the returned response or the
failure, the cookie jar after extractions, and the requests handed to the
dispatcher in order. -/
structure EngineOut where
  result : Except EngineFailure Response
  jar : Cookies
  dispatched : List Request

/-- send_handling_redirects from the source.  The dispatcher is a function
argument; `jar` threads the client cookie jar mutated by extract_cookies,
and `dispatched` accumulates the requests handed to the dispatcher.  The
precheck order, the `history[-1]` accesses (an empty history makes them an
IndexError), the history snapshot attached before appending, and the
redirect decision follow the source line by line.  The lazy `response.next`
continuation attached to a terminal redirect response is not modelled: it
merely re-enters this same function with the captured arguments. -/
def send_handling_redirects (c : Client) (dispatch : Request → Except String Response)
    (allow_redirects : Bool) (request : Request) (history : List Response)
    (jar : Cookies) (dispatched : List Request) : EngineOut :=
  if _h1 : (history.length : Int) > c.max_redirects then
    match history.getLast? with
    | some last => ⟨.error (.http (.tooManyRedirects last)), jar, dispatched⟩
    | none => ⟨.error .indexError, jar, dispatched⟩
  else if history.any (fun r => r.url == request.url) then
    match history.getLast? with
    | some last => ⟨.error (.http (.redirectLoop last)), jar, dispatched⟩
    | none => ⟨.error .indexError, jar, dispatched⟩
  else
    match dispatch request with
    | .error e => ⟨.error (.http (.dispatchFailure e)), jar, dispatched ++ [request]⟩
    | .ok response =>
      let response := { response with history := history }
      let jar := jar.extract response
      let history := history ++ [response]
      if allow_redirects ∧ response.is_redirect then
        match build_redirect_request jar request response with
        | .error e => ⟨.error (.http e), jar, dispatched ++ [request]⟩
        | .ok next =>
          send_handling_redirects c dispatch allow_redirects next history jar
            (dispatched ++ [request])
      else ⟨.ok response, jar, dispatched ++ [request]⟩
termination_by (c.max_redirects + 1 - history.length).toNat
decreasing_by
  simp only [List.length_append, List.length_cons, List.length_nil]
  omega

/-- Modelled from the spec: the Basic-auth credential string.  The real
encoding (base64, in the external auth module) is opaque to the core; only
its dependence on username and password matters to the claims. -/
def basicCredential (username password : String) : String :=
  "Basic " ++ username ++ ":" ++ password

/-- Modelled from the spec: HTTPBasicAuth transforms a request by setting
its Authorization header. -/
def HTTPBasicAuth.apply (username password : String) (request : Request) : Request :=
  { request with
      headers := request.headers.update [("Authorization", basicCredential username password)] }

/-- The auth value the send pipeline ends up applying. -/
inductive ResolvedAuth where
  | none
  | basic (username password : String)
  | custom (f : Request → Request)

/-- The 2-tuple-to-Basic promotion performed at the application site in
send (the isinstance(auth, tuple) branch). -/
def AuthArg.promote : AuthArg → ResolvedAuth
  | .pair u p => .basic u p
  | .basic u p => .basic u p
  | .fn f => .custom f

/-- The auth-resolution logic of send, source order: default the per-call
auth from the client; a still-absent auth falls back to the request URL's
user-info promoted to Basic auth, and then, when the effective trust-env
flag (per-call value if given, else the context default) is on, to a netrc
lookup on the URL's authority. -/
def resolve_auth (c : Client) (netrc : String → Option (String × String × String))
    (auth : Option AuthArg) (url : URL) (trust_env : Option Bool) : ResolvedAuth :=
  let auth := match auth with | none => c.auth | some a => some a
  match auth with
  | some a => a.promote
  | none =>
    if url.username ≠ "" ∨ url.password ≠ "" then .basic url.username url.password
    else if (match trust_env with | none => c.trust_env | some t => t) then
      match netrc url.authority with
      | some (u, _, p) => .basic u p
      | none => .none
    else .none

/-- Application of the resolved auth (identity when none). -/
def ResolvedAuth.apply : ResolvedAuth → Request → Request
  | .none, r => r
  | .basic u p, r => HTTPBasicAuth.apply u p r
  | .custom f, r => f r

/-- A failure surfaced by send: the failure kind together with the request
the pipeline attached to it (none when the failure escaped attribution). -/
structure SendFailure where
  kind : EngineFailure
  request : Option Request

/-- send from the source: scheme validation, auth resolution and
application, the redirect engine, and attachment of the request variable to
any HTTPError the engine raises.  The scheme check is ordered before the
user-info resolution here; both are pure, so the order is unobservable.
Body buffering and close (the stream flag) are resource effects outside the
pure model. -/
def send (c : Client) (netrc : String → Option (String × String × String))
    (dispatch : Request → Except String Response) (request : Request)
    (auth : Option AuthArg) (allow_redirects : Bool) (trust_env : Option Bool)
    (jar : Cookies) : Except SendFailure Response :=
  if request.url.scheme ≠ "http" ∧ request.url.scheme ≠ "https" then
    .error ⟨.http (.invalidURL "URL scheme must be http or https."), Option.none⟩
  else
    let request := (resolve_auth c netrc auth request.url trust_env).apply request
    match (send_handling_redirects c dispatch allow_redirects request [] jar []).result with
    | .error (.http e) => .error ⟨.http e, some request⟩
    | .error .indexError => .error ⟨.indexError, Option.none⟩
    | .ok response => .ok response

/-- The amended resolution order, stated from the spec's words: the explicit
per-call auth if given; else the client's default auth; else the URL's
user-info promoted to Basic auth; else, when the effective trust-env flag
(per-call value if given, else the context default) is on, a netrc lookup on
the URL's authority; else none.  A 2-tuple credential is promoted to Basic
auth. -/
def resolve_auth_spec (c : Client) (netrc : String → Option (String × String × String))
    (auth : Option AuthArg) (url : URL) (trust_env : Option Bool) : ResolvedAuth :=
  match auth with
  | some a => a.promote
  | none =>
    match c.auth with
    | some a => a.promote
    | none =>
      if url.username ≠ "" ∨ url.password ≠ "" then .basic url.username url.password
      else if trust_env.getD c.trust_env then
        match netrc url.authority with
        | some (u, _, p) => .basic u p
        | none => .none
      else .none

/-- C3: for every prior request and redirect response, redirect_method
returns GET when the status is 303 and the prior method is not HEAD, GET
when the status is 302 and the prior method is not HEAD, GET when the status
is 301 and the prior method is POST, and the prior method unchanged in every
other case. -/
theorem redirect_method_correct (request : Request) (response : Response) :
    redirect_method request response =
      (if response.status_code = 303 ∧ request.method ≠ "HEAD" then "GET"
       else if response.status_code = 302 ∧ request.method ≠ "HEAD" then "GET"
       else if response.status_code = 301 ∧ request.method = "POST" then "GET"
       else request.method) := by
  unfold redirect_method
  by_cases h3 : response.status_code = 303 <;>
    by_cases h2 : response.status_code = 302 <;>
      by_cases h1 : response.status_code = 301 <;>
        by_cases hH : request.method = "HEAD" <;>
          by_cases hP : request.method = "POST" <;>
            simp_all

/-- C4: redirect_content returns an empty body exactly by the changed-to-GET
rule, otherwise fails with RedirectBodyUnavailable carrying the redirect
response exactly when the prior body is a lazy stream, and otherwise
forwards the prior bytes unchanged. -/
theorem redirect_content_correct (request : Request) (method : String) (response : Response) :
    (redirect_content request method response = .error (.redirectBodyUnavailable response) ↔
      ¬(method ≠ request.method ∧ method = "GET") ∧ request.is_streaming = true) ∧
    (method ≠ request.method → method = "GET" →
      redirect_content request method response = .ok []) ∧
    (¬(method ≠ request.method ∧ method = "GET") → request.is_streaming = false →
      redirect_content request method response = .ok request.content) := by
  unfold redirect_content
  split_ifs with hg hs
  · refine ⟨?_, fun _ _ => rfl, fun hn _ => absurd hg hn⟩
    obtain ⟨hm, hG⟩ := hg
    subst hG
    simp [hm]
  · refine ⟨by simp [hg, hs], fun hm hG => absurd ⟨hm, hG⟩ hg, fun _ hns => ?_⟩
    rw [hs] at hns
    exact absurd hns (by simp)
  · refine ⟨by simp [hg, hs], fun hm hG => absurd ⟨hm, hG⟩ hg, fun _ _ => rfl⟩

/-- Concrete request and response used to witness C4: a streaming POST
receiving a 307. -/
def reqStream : Request := { method := "POST", url := {}, is_streaming := true }

/-- The 307 redirect response for the C4 witness. -/
def resp307 : Response :=
  { status_code := 307, headers := [("location", "https://a/2")], url := {}, history := [] }

/-- Witness for C4: at the concrete streaming POST hop the hypotheses hold
and the RedirectBodyUnavailable case fires. -/
theorem redirect_content_correct_witness :
    (redirect_content reqStream "POST" resp307 =
        .error (.redirectBodyUnavailable resp307) ↔
      ¬("POST" ≠ reqStream.method ∧ "POST" = "GET") ∧ reqStream.is_streaming = true) ∧
    ("POST" ≠ reqStream.method → "POST" = "GET" →
      redirect_content reqStream "POST" resp307 = .ok []) ∧
    (¬("POST" ≠ reqStream.method ∧ "POST" = "GET") → reqStream.is_streaming = false →
      redirect_content reqStream "POST" resp307 = .ok reqStream.content) :=
  redirect_content_correct reqStream "POST" resp307

/-- C2: the redirect headers are a copy of the prior request's headers; on a
cross-origin redirect exactly the entries named Authorization and host
(matched case-insensitively, absence tolerated) are removed and every other
entry is kept unchanged in order; on a same-origin redirect all headers,
including Authorization, are unchanged. -/
theorem redirect_headers_correct (request : Request) (url : URL) :
    (url.origin ≠ request.url.origin →
      redirect_headers request url =
        request.headers.filter
          (fun p => lowerName p.1 != "authorization" && lowerName p.1 != "host")) ∧
    (url.origin = request.url.origin → redirect_headers request url = request.headers) := by
  constructor
  · intro hne
    unfold redirect_headers Headers.delete
    rw [if_pos hne, List.filter_filter]
    apply List.filter_congr
    intro p _
    have ha : lowerName "Authorization" = "authorization" := by decide
    have hh : lowerName "host" = "host" := by decide
    rw [ha, hh]
    exact Bool.and_comm _ _
  · intro he
    unfold redirect_headers
    rw [if_neg (not_not_intro he)]

/-- Concrete prior request for the C2 witness: Authorization plus one other
header, at origin https://a. -/
def reqAuthH : Request :=
  { method := "GET", url := { scheme := "https", host := "a", path := "/1" },
    headers := [("Authorization", "Bearer T"), ("Accept", "x")] }

/-- Cross-origin redirect target for the C2 witness. -/
def urlOtherOrigin : URL := { scheme := "https", host := "c", path := "/2" }

/-- Witness for C2 at a concrete cross-origin hop. -/
theorem redirect_headers_correct_witness :
    (urlOtherOrigin.origin ≠ reqAuthH.url.origin →
      redirect_headers reqAuthH urlOtherOrigin =
        reqAuthH.headers.filter
          (fun p => lowerName p.1 != "authorization" && lowerName p.1 != "host")) ∧
    (urlOtherOrigin.origin = reqAuthH.url.origin →
      redirect_headers reqAuthH urlOtherOrigin = reqAuthH.headers) :=
  redirect_headers_correct reqAuthH urlOtherOrigin

/-- Every name occurring in the defaults occurs in the result of updating
the defaults, case-insensitively. -/
lemma hasKey_update_of_mem (d o : Headers) (p : String × String) (hp : p ∈ d) :
    Headers.hasKey (Headers.update d o) p.1 = true := by
  unfold Headers.update Headers.hasKey
  rw [List.any_append, Bool.or_eq_true]
  by_cases hk : Headers.hasKey o p.1
  · right
    unfold Headers.hasKey at hk
    exact hk
  · left
    rw [List.any_eq_true]
    have hf : Headers.hasKey o p.1 = false := by
      revert hk
      cases Headers.hasKey o p.1 <;> simp
    refine ⟨p, List.mem_filter.mpr ⟨hp, by
      show (!(Headers.hasKey o p.1)) = true
      rw [hf]
      rfl⟩, by simp⟩

/-- Updating defaults with a set that already went through the same update
is absorbed: every default name is present in it, so the seeding filter
drops everything. -/
lemma update_update (d o : Headers) :
    Headers.update d (Headers.update d o) = Headers.update d o := by
  have hstep : Headers.update d (Headers.update d o) =
      d.filter (fun p => !(Headers.hasKey (Headers.update d o) p.1)) ++
        Headers.update d o := rfl
  have hnil : d.filter (fun p => !(Headers.hasKey (Headers.update d o) p.1)) = [] := by
    rw [List.filter_eq_nil_iff]
    intro p hp
    simp [hasKey_update_of_mem d o p hp]
  rw [hstep, hnil, List.nil_append]

/-- C9: merge_headers is idempotent: merging a second time against the same
client defaults is a no-op on the resulting header set (here even up to
plain equality of the ordered entry list). -/
theorem merge_headers_idempotent (c : Client) (h : Option Headers) :
    merge_headers c (merge_headers c h) = merge_headers c h := by
  by_cases hc : h.getD [] ≠ [] ∨ c.headers ≠ []
  · have hin : merge_headers c h = some (Headers.update c.headers (h.getD [])) := by
      unfold merge_headers
      rw [if_pos hc]
    rw [hin]
    unfold merge_headers
    rw [if_pos ?cond]
    case cond =>
      rcases hc with h1 | h2
      · left
        simp only [Option.getD_some]
        intro hm
        rw [Headers.update, List.append_eq_nil] at hm
        exact h1 hm.2
      · right
        exact h2
    simp only [Option.getD_some]
    rw [update_update]
  · have hin : merge_headers c h = h := by
      unfold merge_headers
      rw [if_neg hc]
    rw [hin]
    unfold merge_headers
    rw [if_neg hc]

/-- C6 (amended): merge_url is the join of the base URL with the argument
followed by the HSTS upgrade; the upgrade changes no field but the scheme,
it rewrites the scheme only from http to https and only on a preloaded
host, and every merged URL whose host is preloaded and whose joined scheme
is http or https ends up with scheme https. -/
theorem merge_url_correct (c : Client) (in_hsts_preload : String → Bool) (u : URL) :
    ((merge_url c in_hsts_preload u).host = (c.base_url.join u).host ∧
      (merge_url c in_hsts_preload u).port = (c.base_url.join u).port ∧
      (merge_url c in_hsts_preload u).path = (c.base_url.join u).path ∧
      (merge_url c in_hsts_preload u).query = (c.base_url.join u).query ∧
      (merge_url c in_hsts_preload u).fragment = (c.base_url.join u).fragment ∧
      (merge_url c in_hsts_preload u).username = (c.base_url.join u).username ∧
      (merge_url c in_hsts_preload u).password = (c.base_url.join u).password ∧
      (merge_url c in_hsts_preload u).is_relative = (c.base_url.join u).is_relative) ∧
    (((c.base_url.join u).scheme = "http" ∨ (c.base_url.join u).scheme = "https") →
      in_hsts_preload (merge_url c in_hsts_preload u).host = true →
      (merge_url c in_hsts_preload u).scheme = "https") ∧
    ((merge_url c in_hsts_preload u).scheme ≠ (c.base_url.join u).scheme →
      (c.base_url.join u).scheme = "http" ∧
        (merge_url c in_hsts_preload u).scheme = "https" ∧
        in_hsts_preload (c.base_url.join u).host = true) := by
  unfold merge_url
  by_cases hup : (c.base_url.join u).scheme = "http" ∧
      in_hsts_preload (c.base_url.join u).host = true
  · rw [if_pos hup]
    refine ⟨by simp, fun _ _ => rfl, fun _ => ⟨hup.1, rfl, hup.2⟩⟩
  · rw [if_neg hup]
    refine ⟨by simp, ?_, fun hne => absurd rfl hne⟩
    intro hsch hpre
    rcases hsch with hhttp | hhttps
    · exact absurd ⟨hhttp, hpre⟩ hup
    · exact hhttps

/-- Concrete client for the C6 counterexample: default construction (empty
relative base URL, identity under join). -/
def cliC6 : Client := {}

/-- A preload predicate holding for the host of the counterexample URL
(standing for a host present in the HSTS preload database). -/
def hstsC6 : String → Bool := fun h => h == "preloaded.example"

/-- A URL with a non-http(s) scheme on a preloaded host.  merge_url never
upgrades it, so its merged scheme is not https. -/
def urlFtp : URL := { scheme := "ftp", host := "preloaded.example", path := "/x" }

/-- Counterexample to C6 as stated: the merged URL's host is in the preload
set, yet its scheme is not https (the upgrade only applies to scheme http,
and send rejects such a URL only later). -/
theorem merge_url_hsts_counterexample :
    hstsC6 (merge_url cliC6 hstsC6 urlFtp).host = true ∧
      (merge_url cliC6 hstsC6 urlFtp).scheme ≠ "https" := by
  constructor
  · decide
  · decide

/-- Witness for C6: on a plain http URL with a preloaded host the merged
scheme is https. -/
def urlHttpPre : URL := { scheme := "http", host := "preloaded.example", path := "/x" }

/-- Witness for the amended C6 theorem at the concrete preloaded http URL,
discharging its implications. -/
theorem merge_url_correct_witness :
    (merge_url cliC6 hstsC6 urlHttpPre).scheme = "https" :=
  (merge_url_correct cliC6 hstsC6 urlHttpPre).2.1 (by decide) (by decide)

/-- C8 (amended): the auth resolution of send follows the order: explicit
per-call auth; else the client's default auth; else the request URL's
user-info promoted to Basic auth; else, when the effective trust-env flag
(per-call value if given, else the context default) is on, a netrc lookup
on the URL's authority yielding Basic auth when it succeeds; else no auth.
A 2-tuple credential is promoted to Basic auth before being applied. -/
theorem resolve_auth_matches_spec_order (c : Client)
    (netrc : String → Option (String × String × String)) (auth : Option AuthArg)
    (url : URL) (trust_env : Option Bool) :
    resolve_auth c netrc auth url trust_env = resolve_auth_spec c netrc auth url trust_env := by
  unfold resolve_auth resolve_auth_spec
  cases auth with
  | some a => rfl
  | none =>
    cases c.auth with
    | some a => rfl
    | none =>
      cases trust_env with
      | some t => rfl
      | none => rfl

/-- Client for the C8 counterexample: a default auth credential is set on
the context. -/
def cliC8 : Client := { auth := some (.pair "c" "d") }

/-- URL for the C8 counterexample, carrying user-info. -/
def urlUserinfo : URL :=
  { scheme := "https", host := "h", path := "/", username := "u", password := "p" }

/-- Counterexample to C8 as stated: with no per-call auth the claimed order
continues with the URL's user-info, but the code resolves the client's
default auth first, so the result is Basic("c","d"), not the user-info
Basic("u","p"). -/
theorem resolve_auth_order_counterexample :
    resolve_auth cliC8 (fun _ => Option.none) Option.none urlUserinfo Option.none =
        .basic "c" "d" ∧
      urlUserinfo.username = "u" ∧ urlUserinfo.password = "p" ∧
      ResolvedAuth.basic "c" "d" ≠
        ResolvedAuth.basic urlUserinfo.username urlUserinfo.password := by
  refine ⟨rfl, rfl, rfl, ?_⟩
  intro h
  rw [show urlUserinfo.username = "u" from rfl, show urlUserinfo.password = "p" from rfl] at h
  injection h with h1 h2
  exact absurd h1 (by decide)

/-- C5: at any hop whose precheck finds the current request URL among the
URLs already in the history, the engine fails with RedirectLoop carrying the
last response of the history, leaves the jar untouched, and does not invoke
the dispatcher for that hop (the dispatched trace is unchanged). -/
theorem send_handling_redirects_loop (c : Client)
    (dispatch : Request → Except String Response) (allow_redirects : Bool)
    (request : Request) (history : List Response) (jar : Cookies)
    (dispatched : List Request) (last : Response)
    (hlen : ¬ ((history.length : Int) > c.max_redirects))
    (hloop : history.any (fun r => r.url == request.url) = true)
    (hlast : history.getLast? = some last) :
    send_handling_redirects c dispatch allow_redirects request history jar dispatched =
      ⟨.error (.http (.redirectLoop last)), jar, dispatched⟩ := by
  rw [send_handling_redirects]
  rw [dif_neg hlen, if_pos hloop, hlast]

/-- Default client (max_redirects 20) used by witnesses. -/
def cliDef : Client := {}

/-- Stub dispatcher for prechecks that must not reach the dispatcher. -/
def dispStub : Request → Except String Response := fun _ => .error "unused"

/-- The URL revisited in the C5 witness chain. -/
def urlA : URL := { scheme := "https", host := "a", path := "/1" }

/-- A response already recorded for urlA in the history. -/
def respSeen : Response := { status_code := 200, headers := [], url := urlA, history := [] }

/-- The request revisiting urlA. -/
def reqLoop : Request := { method := "GET", url := urlA }

/-- Witness for C5: a hop entered with urlA already in the history fails
with RedirectLoop carrying the last history entry and dispatches nothing. -/
theorem send_handling_redirects_loop_witness :
    send_handling_redirects cliDef dispStub true reqLoop [respSeen] [] [] =
      ⟨.error (.http (.redirectLoop respSeen)), [], []⟩ :=
  send_handling_redirects_loop cliDef dispStub true reqLoop [respSeen] [] [] respSeen
    (by decide) (by decide) rfl

/-- Once the history is non-empty it stays non-empty, so no precheck ever
evaluates history[-1] on an empty list: the engine never returns the
IndexError outcome from a call entered with a non-empty history. -/
lemma engine_no_indexError_of_ne_nil (c : Client)
    (dispatch : Request → Except String Response) (allow_redirects : Bool) :
    ∀ (request : Request) (history : List Response) (jar : Cookies) (dispatched : List Request),
      history ≠ [] →
      (send_handling_redirects c dispatch allow_redirects request history jar dispatched).result ≠
        Except.error EngineFailure.indexError := by
  intro request history jar dispatched
  induction request, history, jar, dispatched
    using send_handling_redirects.induct c dispatch allow_redirects with
  | case1 request history jar dispatched h1 last hlast =>
    intro _
    rw [send_handling_redirects, dif_pos h1, hlast]
    simp
  | case2 request history jar dispatched h1 hlast =>
    intro hne
    rw [List.getLast?_eq_none_iff] at hlast
    exact absurd hlast hne
  | case3 request history jar dispatched h1 h2 last hlast =>
    intro _
    rw [send_handling_redirects, dif_neg h1, if_pos h2, hlast]
    simp
  | case4 request history jar dispatched h1 h2 hlast =>
    intro hne
    rw [List.getLast?_eq_none_iff] at hlast
    exact absurd hlast hne
  | case5 request history jar dispatched h1 h2 e hdisp =>
    intro _
    rw [send_handling_redirects, dif_neg h1, if_neg h2, hdisp]
    simp
  | case6 request history jar dispatched h1 h2 response hdisp resp2 jar2 hif e hbuild =>
    intro _
    rw [send_handling_redirects, dif_neg h1, if_neg h2, hdisp]
    simp only
    rw [if_pos hif, hbuild]
    simp
  | case7 request history jar dispatched h1 h2 response hdisp resp2 jar2 hist2 hif next hbuild ih =>
    intro _
    rw [send_handling_redirects, dif_neg h1, if_neg h2, hdisp]
    simp only
    rw [if_pos hif, hbuild]
    exact ih (fun hcon => absurd (List.append_eq_nil.mp hcon).2 (by simp))
  | case8 request history jar dispatched h1 h2 response hdisp resp2 hif =>
    intro _
    rw [send_handling_redirects, dif_neg h1, if_neg h2, hdisp]
    simp only
    rw [if_neg hif]
    simp

/-- C10: entered with the defaulted empty history, neither precheck can fire
on the first iteration when max_redirects is non-negative, and the history
is non-empty at every later point where history[-1] is read, so the
IndexError outcome is unreachable; with a negative max_redirects the
TooManyRedirects precheck is reached with an empty history on the first
iteration and its history[-1] access is exactly the IndexError outcome. -/
theorem send_handling_redirects_first_hop (c : Client)
    (dispatch : Request → Except String Response) (allow_redirects : Bool)
    (request : Request) (jar : Cookies) (dispatched : List Request) :
    (0 ≤ c.max_redirects →
      (send_handling_redirects c dispatch allow_redirects request [] jar dispatched).result ≠
        Except.error EngineFailure.indexError) ∧
    (c.max_redirects < 0 →
      send_handling_redirects c dispatch allow_redirects request [] jar dispatched =
        ⟨Except.error EngineFailure.indexError, jar, dispatched⟩) := by
  constructor
  · intro hm
    rw [send_handling_redirects]
    rw [dif_neg (by simp only [List.length_nil, Nat.cast_zero]; omega)]
    rw [if_neg (by simp)]
    cases hdisp : dispatch request with
    | error e => simp
    | ok response =>
      simp only
      split
      · split
        · simp
        · exact engine_no_indexError_of_ne_nil c dispatch allow_redirects _ _ _ _ (by simp)
      · simp
  · intro hm
    rw [send_handling_redirects]
    rw [dif_pos (by simp only [List.length_nil, Nat.cast_zero]; omega)]
    rfl

/-- Witness for C10: with the default cap (20) a first hop entered with the
empty history cannot produce the IndexError outcome. -/
theorem send_handling_redirects_first_hop_witness :
    (send_handling_redirects cliDef dispStub true reqLoop [] [] []).result ≠
      Except.error EngineFailure.indexError :=
  (send_handling_redirects_first_hop cliDef dispStub true reqLoop [] []).1 (by decide)

/-- The engine's history shape: the last recorded response carries, as its
attached history, exactly the responses received before it. -/
def HistOK (history : List Response) : Prop :=
  ∀ r, history.getLast? = some r → r.history.length + 1 = history.length

/-- Appending a response whose attached history is the current history
preserves the shape. -/
lemma histOK_append (history : List Response) (r : Response) (hr : r.history = history) :
    HistOK (history ++ [r]) := by
  intro x hx
  rw [List.getLast?_concat] at hx
  injection hx with hx
  subst hx
  rw [hr]
  simp

/-- build_redirect_request fails only with RedirectBodyUnavailable carrying
the redirect response it was building from. -/
lemma build_redirect_request_error (jar : Cookies) (request : Request) (response : Response)
    (e : HttpError) (h : build_redirect_request jar request response = Except.error e) :
    e = .redirectBodyUnavailable response := by
  unfold build_redirect_request at h
  simp only [] at h
  split at h
  next e2 heq =>
    injection h with h
    unfold redirect_content at heq
    split_ifs at heq with hg hs
    injection heq with heq2
    exact (heq2.trans h).symm
  next content heq =>
    exact Except.noConfusion h

/-- History-length invariant of the engine: entered with a well-shaped
history no longer than max_redirects + 1, a returned response carries a
history of length at most max_redirects, and a TooManyRedirects failure
carries a response whose history has length exactly max_redirects. -/
lemma engine_history_invariant (c : Client)
    (dispatch : Request → Except String Response) (allow_redirects : Bool) :
    ∀ (request : Request) (history : List Response) (jar : Cookies) (dispatched : List Request),
      HistOK history →
      (history.length : Int) ≤ c.max_redirects + 1 →
      (∀ resp,
        (send_handling_redirects c dispatch allow_redirects request history jar dispatched).result =
          Except.ok resp → (resp.history.length : Int) ≤ c.max_redirects) ∧
      (∀ r,
        (send_handling_redirects c dispatch allow_redirects request history jar dispatched).result =
          Except.error (.http (.tooManyRedirects r)) →
        (r.history.length : Int) = c.max_redirects) := by
  intro request history jar dispatched
  induction request, history, jar, dispatched
    using send_handling_redirects.induct c dispatch allow_redirects with
  | case1 request history jar dispatched h1 last hlast =>
    intro hok hlen
    rw [send_handling_redirects, dif_pos h1, hlast]
    constructor
    · intro resp h
      simp at h
    · intro r h
      simp only [Except.error.injEq, EngineFailure.http.injEq,
        HttpError.tooManyRedirects.injEq] at h
      subst h
      have hnat := hok last hlast
      omega
  | case2 request history jar dispatched h1 hlast =>
    intro hok hlen
    rw [send_handling_redirects, dif_pos h1, hlast]
    exact ⟨fun resp h => by simp at h, fun r h => by simp at h⟩
  | case3 request history jar dispatched h1 h2 last hlast =>
    intro hok hlen
    rw [send_handling_redirects, dif_neg h1, if_pos h2, hlast]
    exact ⟨fun resp h => by simp at h, fun r h => by simp at h⟩
  | case4 request history jar dispatched h1 h2 hlast =>
    intro hok hlen
    rw [send_handling_redirects, dif_neg h1, if_pos h2, hlast]
    exact ⟨fun resp h => by simp at h, fun r h => by simp at h⟩
  | case5 request history jar dispatched h1 h2 e hdisp =>
    intro hok hlen
    rw [send_handling_redirects, dif_neg h1, if_neg h2, hdisp]
    exact ⟨fun resp h => by simp at h, fun r h => by simp at h⟩
  | case6 request history jar dispatched h1 h2 response hdisp resp2 jar2 hif e hbuild =>
    intro hok hlen
    rw [send_handling_redirects, dif_neg h1, if_neg h2, hdisp]
    simp only
    rw [if_pos hif, hbuild]
    refine ⟨fun resp h => by simp at h, fun r h => ?_⟩
    simp only [Except.error.injEq, EngineFailure.http.injEq] at h
    rw [build_redirect_request_error jar2 request resp2 e hbuild] at h
    exact HttpError.noConfusion h
  | case7 request history jar dispatched h1 h2 response hdisp resp2 jar2 hist2 hif next hbuild ih =>
    intro hok hlen
    rw [send_handling_redirects, dif_neg h1, if_neg h2, hdisp]
    simp only
    rw [if_pos hif, hbuild]
    exact ih (histOK_append history resp2 rfl)
      (by
        show (((history ++ [resp2]).length : Nat) : Int) ≤ c.max_redirects + 1
        simp only [List.length_append, List.length_cons, List.length_nil]
        push_cast
        omega)
  | case8 request history jar dispatched h1 h2 response hdisp resp2 hif =>
    intro hok hlen
    rw [send_handling_redirects, dif_neg h1, if_neg h2, hdisp]
    simp only
    rw [if_neg hif]
    constructor
    · intro resp h
      have h2 : Except.ok resp2 = Except.ok resp := h
      injection h2 with h2
      rw [← h2]
      show ((history.length : Nat) : Int) ≤ c.max_redirects
      omega
    · intro r h
      exact Except.noConfusion h

/-- C1: for a call entered with the defaulted empty history and a
non-negative max_redirects, the response the engine returns carries a
history of length at most max_redirects, and a TooManyRedirects failure
carries the last response, whose attached history has length exactly
max_redirects — the precheck compares with strict greater-than, so
max_redirects = N permits up to N + 1 total responses (N redirects plus the
terminal). -/
theorem send_handling_redirects_max_redirects (c : Client)
    (dispatch : Request → Except String Response) (allow_redirects : Bool)
    (request : Request) (jar : Cookies) (dispatched : List Request)
    (hm : 0 ≤ c.max_redirects) :
    (match (send_handling_redirects c dispatch allow_redirects request [] jar dispatched).result with
     | Except.ok resp => (resp.history.length : Int) ≤ c.max_redirects
     | Except.error (.http (.tooManyRedirects r)) =>
        (r.history.length : Int) = c.max_redirects
     | _ => True) := by
  have h := engine_history_invariant c dispatch allow_redirects request [] jar dispatched
    (fun r hr => by simp at hr)
    (by simp only [List.length_nil, Nat.cast_zero]; omega)
  cases hres : (send_handling_redirects c dispatch allow_redirects request [] jar dispatched).result with
  | ok resp =>
    exact h.1 resp hres
  | error f =>
    cases f with
    | indexError => trivial
    | http he =>
      cases he with
      | tooManyRedirects r => exact h.2 r hres
      | invalidURL m => trivial
      | redirectLoop r => trivial
      | redirectBodyUnavailable r => trivial
      | dispatchFailure m => trivial

/-- Client with max_redirects = 1 for the C1 witness. -/
def cliMax1 : Client := { max_redirects := 1 }

/-- Dispatcher that always redirects to a fresh path, driving the chain
into the TooManyRedirects precheck. -/
def dispGrow : Request → Except String Response := fun req =>
  .ok { status_code := 302, headers := [("location", req.url.path ++ "x")],
        url := req.url, history := [] }

/-- Witness for C1: the bound instantiated at an always-redirecting
dispatcher under max_redirects = 1, with the hypothesis discharged. -/
theorem send_handling_redirects_max_redirects_witness :
    (match (send_handling_redirects cliMax1 dispGrow true reqLoop [] [] []).result with
     | Except.ok resp => (resp.history.length : Int) ≤ cliMax1.max_redirects
     | Except.error (.http (.tooManyRedirects r)) =>
        (r.history.length : Int) = cliMax1.max_redirects
     | _ => True) :=
  send_handling_redirects_max_redirects cliMax1 dispGrow true reqLoop [] [] (by decide)

/-- C7 (amended): when the redirect engine raises an HTTPError-class
failure, send attaches the request as passed to the engine — the request
after auth transformation, which coincides with the user-supplied request
whenever the resolved auth is the identity — and re-raises the same
failure. -/
theorem send_attaches_engine_request (c : Client)
    (netrc : String → Option (String × String × String))
    (dispatch : Request → Except String Response) (request : Request)
    (auth : Option AuthArg) (allow_redirects : Bool) (trust_env : Option Bool)
    (jar : Cookies) (e : HttpError)
    (hscheme : request.url.scheme = "http" ∨ request.url.scheme = "https")
    (heng : (send_handling_redirects c dispatch allow_redirects
        ((resolve_auth c netrc auth request.url trust_env).apply request) [] jar []).result =
      Except.error (.http e)) :
    send c netrc dispatch request auth allow_redirects trust_env jar =
      Except.error
        ⟨.http e, some ((resolve_auth c netrc auth request.url trust_env).apply request)⟩ := by
  unfold send
  rw [if_neg (by rcases hscheme with h | h <;> simp [h])]
  simp only []
  rw [heng]

/-- Request for the C7 counterexample. -/
def reqC7 : Request := { method := "GET", url := { scheme := "https", host := "a", path := "/1" } }

/-- An auth transformation that visibly changes the request. -/
def bumpC7 : Request → Request := fun r => { r with method := "PUT" }

/-- Dispatcher failing with a transport error on every hop. -/
def dispFail : Request → Except String Response := fun _ => .error "boom"

/-- Empty netrc. -/
def netrcNone : String → Option (String × String × String) := fun _ => Option.none

/-- The engine outcome on the C7 inputs: the hop-1 transport failure. -/
lemma engineC7_eval :
    (send_handling_redirects cliDef dispFail true (bumpC7 reqC7) [] [] []).result =
      Except.error (.http (.dispatchFailure "boom")) := by
  rw [send_handling_redirects]
  rw [dif_neg (by norm_num [cliDef])]
  rw [if_neg (by simp)]
  rfl

/-- Counterexample to C7 as stated: with a request-modifying auth, the
failure record carries the auth-transformed request, which differs from the
original user-supplied request. -/
theorem send_attaches_transformed_request :
    send cliDef netrcNone dispFail reqC7 (some (.fn bumpC7)) true Option.none [] =
      Except.error ⟨.http (.dispatchFailure "boom"), some (bumpC7 reqC7)⟩ ∧
    bumpC7 reqC7 ≠ reqC7 := by
  constructor
  · unfold send
    rw [if_neg (by simp [reqC7])]
    simp only []
    have hra : (resolve_auth cliDef netrcNone (some (.fn bumpC7)) reqC7.url Option.none).apply
        reqC7 = bumpC7 reqC7 := rfl
    rw [hra, engineC7_eval]
  · exact fun hcon => absurd (congrArg Request.method hcon) (by decide)

/-- Witness for the amended C7 theorem at the concrete failing inputs. -/
theorem send_attaches_engine_request_witness :
    send cliDef netrcNone dispFail reqC7 (some (.fn bumpC7)) true Option.none [] =
      Except.error
        ⟨.http (.dispatchFailure "boom"),
          some ((resolve_auth cliDef netrcNone (some (.fn bumpC7)) reqC7.url
              Option.none).apply reqC7)⟩ :=
  send_attaches_engine_request cliDef netrcNone dispFail reqC7 (some (.fn bumpC7)) true
    Option.none [] (.dispatchFailure "boom") (Or.inr rfl) engineC7_eval
